import Mathlib

/-!
Verification development for the inbound call-dispatch orchestrator
(`InboundQueueService` in `src/services/PJSIPService.ts`).

The TypeScript code is event-driven and asynchronous.  We embed it as a
trace semantics: every control-plane side effect (originate, hangup,
bridge operations, playback/recording control, queue operations, the
third-party notification) is recorded as an `Action` in a trace, and the
asynchronous parts (which outbound attempt answers, which channel is
destroyed, in which order) are driven by an explicit schedule of events.

Channel-id conventions used throughout the model:
  * `0`                is the inbound caller's channel,
  * `i + 1`            is the outbound channel of attempt `i`,
  * `100 + c`          is the callback channel pre-allocated next to
                       outbound channel `c` (`client.Channel()` at line 71),
  * `1000 + i`         is the unused stub channel allocated by
                       `callQueueMembers` at the top of iteration `i`
                       (`ariData.client.Channel()` at line 235).
Bridge ids reuse the owning outbound channel id (`c` for the main
mixing bridge, `100 + c` for the callback bridge).

Modelling decisions, each taken from the source:
  * `hangupChannel` is best effort (spec section 6: hangup is idempotent
    and ignores "already gone"); the model records the hangup with its
    target.  The ring-all drop-other-calls loop reads `.outboundChannel`
    from a JavaScript `Promise`, which is `undefined`; such a call is
    recorded as `Action.hangup none` and touches no real channel.
  * a control-plane operation on a channel that no longer exists fails:
    `client.channels.get` rejects, and `inboundChannel.stopMoh()` rejects,
    which aborts the enclosing `async` event handler (there is no `try`
    around it at lines 86).  `success = true` at line 85 executes before
    the `stopMoh`, so the attempt still resolves `true`.
  * event handlers run to completion between suspension points
    (single-threaded cooperative scheduling, spec section 5), so one
    handler invocation is one atomic step of the model.
-/

namespace Ari

/-- One recorded side effect of the orchestrator. -/
inductive Action where
  | origFail (dest : String)
  | originate (chan : Nat) (dest : String)
  | answerEvt (chan : Nat)
  | stopPlayback
  | lookupOk
  | lookupFail
  | dequeue (got : Bool)
  | cbOriginate (chan : Nat) (ok : Bool)
  | stopMoh (ok : Bool)
  | notify (dest : String) (ok : Bool)
  | bridgeCreate (b : Nat)
  | bridgeAdd (b : Nat) (x y : Nat)
  | chanDestroyed (chan : Nat)
  | bridgeDestroy (b : Nat)
  | hangup (target : Option Nat)
  | setFlag (dest : String)
  | checkInbound (i : Nat) (ok : Bool)
  | newStub (i : Nat)
  | stopRecording
  | detachDtmf
  | playConfirm
  | enqueueCb
deriving DecidableEq

/-- Mutable state of the outside world that the dispatch code observes:
whether the inbound caller's channel still exists, and how many entries
the process-wide callback queue holds. -/
structure World where
  inboundAlive : Bool
  cbQueue : Nat
deriving DecidableEq

/-- Static data of one outbound attempt: destination, the id of its
outbound channel, and the configuration flags threaded through
`callQueueMember` (callback mode, presence of `promptCitationData`,
whether the fire-and-forget notification call would succeed, whether the
callback originate would succeed). -/
structure AttemptCfg where
  dest : String
  chan : Nat
  isCitation : Bool
  hasData : Bool
  notifyOk : Bool
  cbOrigOk : Bool
deriving DecidableEq

/-- Model of `promptCitationCallback` (lines 127-175).  It dequeues from
the callback queue; on an empty queue the guard `if (callbackData)` fails
and the function returns with no further effect.  On a non-empty queue it
originates the pre-allocated callback channel toward the dequeued entry
(an originate rejection is caught and logged).  The continuation that
bridges the agent with the callback target runs in a later `StasisStart`
handler of the callback channel and is outside the events our schedules
deliver. -/
def promptCitationCallback (w : World) (cfg : AttemptCfg) : World × List Action :=
  match w.cbQueue with
  | 0 => (w, [Action.dequeue false])
  | Nat.succ q =>
      ({ w with cbQueue := q },
       [Action.dequeue true, Action.cbOriginate (100 + cfg.chan) cfg.cbOrigOk])

/-- Result of one run of the `StasisStart` handler of an outbound
attempt (lines 75-113): the updated world, the recorded effects, the
value of the attempt's local `success` variable, and whether the
`StasisEnd` cleanup handler got registered (it is registered inside the
`try` block that is reached only when `stopMoh` on the inbound channel
did not throw). -/
structure HandlerOut where
  world : World
  trace : List Action
  localSuccess : Bool
  cleanup : Bool
deriving DecidableEq

/-- Model of the `StasisStart` once-handler of `callQueueMember`
(lines 75-113).  Order of effects follows the source: stop the inbound
playback; look the inbound channel up; on lookup failure invoke
`promptCitationCallback`; set the local `success` flag; stop the inbound
hold music.  When the inbound channel is gone the `stopMoh` call rejects
and the handler aborts, so neither the `StasisEnd` cleanup registration
nor the notification nor the bridge creation at lines 88-109 happen.
When the inbound channel is alive the handler registers the cleanup,
fires the notification in callback mode, creates the mixing bridge and
adds the inbound and outbound channels to it. -/
def stasisStartHandler (w : World) (cfg : AttemptCfg) : HandlerOut :=
  if w.inboundAlive then
    { world := w
      trace := [Action.answerEvt cfg.chan, Action.stopPlayback, Action.lookupOk,
          Action.stopMoh true] ++
        (if cfg.isCitation && cfg.hasData then [Action.notify cfg.dest cfg.notifyOk] else []) ++
        [Action.bridgeCreate cfg.chan, Action.bridgeAdd cfg.chan 0 cfg.chan]
      localSuccess := true
      cleanup := true }
  else
    let h := promptCitationCallback w cfg
    { world := h.1
      trace := [Action.answerEvt cfg.chan, Action.stopPlayback, Action.lookupFail] ++
        h.2 ++ [Action.stopMoh false]
      localSuccess := true
      cleanup := false }

/-- Model of the destruction of an outbound channel: the registered
`StasisEnd` once-handler (lines 89-97), when present, destroys the main
bridge, hangs up the inbound channel, destroys the callback bridge and
hangs up the callback channel; then `ChannelDestroyed` fires and the
attempt's promise resolves (lines 116-121). -/
def stasisEndDestroy (w : World) (cfg : AttemptCfg) (cleanup : Bool) : World × List Action :=
  if cleanup then
    ({ w with inboundAlive := false },
     [Action.chanDestroyed cfg.chan, Action.bridgeDestroy cfg.chan, Action.hangup (some 0),
      Action.bridgeDestroy (100 + cfg.chan), Action.hangup (some (100 + cfg.chan))])
  else (w, [Action.chanDestroyed cfg.chan])

/-- Outcome of one awaited `callQueueMember` call. -/
structure AttemptRes where
  world : World
  trace : List Action
  result : Bool
deriving DecidableEq

/-- Model of one fully awaited `callQueueMember` call (lines 45-125), as
the sequential strategy uses it.  `origOk` tells whether the originate
command is accepted, `answers` whether the destination answers before
the ring timeout.  The returned promise resolves only inside the
`ChannelDestroyed` once-handler, so the attempt's own outbound channel
is always destroyed by the time the call resolves; an unanswered attempt
resolves `false` when the control plane destroys the ringing channel at
the timeout. -/
def callQueueMember (w : World) (cfg : AttemptCfg) (origOk answers : Bool) : AttemptRes :=
  if origOk then
    if answers then
      let h := stasisStartHandler w cfg
      let d := stasisEndDestroy h.world cfg h.cleanup
      ⟨d.1, Action.originate cfg.chan cfg.dest :: (h.trace ++ d.2), h.localSuccess⟩
    else
      ⟨w, [Action.originate cfg.chan cfg.dest, Action.chanDestroyed cfg.chan], false⟩
  else
    ⟨w, [Action.origFail cfg.dest], false⟩

/-- Dispatch-wide configuration flags shared by all attempts. -/
structure DispParams where
  isCitation : Bool
  hasData : Bool
  notifyOk : Bool
  cbOrigOk : Bool
deriving DecidableEq

/-- The zero-destination guard shared by both dispatch strategies
(`queueNumbers.length === 0`, lines 183 and 225). -/
def emptyQueueGuard (qn : List α) : Bool :=
  qn.length == 0

/-- Attempt configuration for iteration `i` of a dispatch over
destination `n`. -/
def seqCfg (p : DispParams) (i : Nat) (n : String) : AttemptCfg :=
  ⟨n, i + 1, p.isCitation, p.hasData, p.notifyOk, p.cbOrigOk⟩

/-- The hangups `callQueueMembers` issues on success: one per stub
channel collected in `agentChannels` so far (iterations `0..i`).  These
stubs were never originated, so the hangups touch no opened channel. -/
def stubHangups (i : Nat) : List Action :=
  (List.range (i + 1)).map (fun j => Action.hangup (some (1000 + j)))

/-- Outcome of the sequential dispatch. -/
structure SeqOut where
  success : Bool
  trace : List Action
  cbq : Nat
deriving DecidableEq

/-- Model of the loop body of `callQueueMembers` (lines 234-251),
starting at iteration `i` with `cbq` entries in the callback queue.
Each iteration allocates a stub channel, looks the inbound channel up
(`aliveC i`); on lookup failure the `catch` only logs and the loop
continues with the next destination; on lookup success it awaits
`callQueueMember` (with inbound liveness `aliveA i` at answer time) and,
when that returns `true`, hangs up every stub channel and breaks. -/
def seqGo (p : DispParams) (aliveC aliveA origOk answers : Nat → Bool) :
    List String → Nat → Nat → SeqOut
  | [], _, cbq => ⟨false, [], cbq⟩
  | n :: rest, i, cbq =>
    if aliveC i then
      let r := callQueueMember ⟨aliveA i, cbq⟩ (seqCfg p i n) (origOk i) (answers i)
      if r.result then
        ⟨true, Action.newStub i :: Action.checkInbound i true :: (r.trace ++ stubHangups i),
          r.world.cbQueue⟩
      else
        let k := seqGo p aliveC aliveA origOk answers rest (i + 1) r.world.cbQueue
        ⟨k.success, Action.newStub i :: Action.checkInbound i true :: (r.trace ++ k.trace), k.cbq⟩
    else
      let k := seqGo p aliveC aliveA origOk answers rest (i + 1) cbq
      ⟨k.success, Action.newStub i :: Action.checkInbound i false :: k.trace, k.cbq⟩

/-- Model of `callQueueMembers` (lines 219-254): the zero-destination
guard followed by the sequential loop. -/
def callQueueMembers (p : DispParams) (aliveC aliveA origOk answers : Nat → Bool)
    (numbers : List String) (cbq : Nat) : SeqOut :=
  if emptyQueueGuard numbers then ⟨false, [], cbq⟩
  else seqGo p aliveC aliveA origOk answers numbers 0 cbq

/-- Status of one ring-all attempt. -/
inductive AStat where
  | failed
  | ringing
  | answered
  | destroyed
deriving DecidableEq

/-- One attempt of the ring-all strategy: its destination, outbound
channel id, status, the attempt-local `success` variable, whether the
`StasisEnd` cleanup handler is registered, and the resolution value of
its promise once resolved. -/
structure RAAttempt where
  dest : String
  chan : Nat
  status : AStat
  localSuccess : Bool
  cleanup : Bool
  resolved : Option Bool
deriving DecidableEq

/-- State of a `callQueueMembersRingall` run: the attempts, the world,
the shared `success` flag and `answeredChannel` slot (lines 190-194),
and the trace. -/
structure RASt where
  attempts : List RAAttempt
  world : World
  success : Bool
  answeredChannel : Option String
  trace : List Action
deriving DecidableEq

/-- Initial record of attempt `i`: ringing after a successful originate,
already resolved `false` after a rejected originate (lines 58-69). -/
def mkAttempt (i : Nat) (d : String) (ok : Bool) : RAAttempt :=
  if ok then ⟨d, i + 1, AStat.ringing, false, false, none⟩
  else ⟨d, i + 1, AStat.failed, false, false, some false⟩

/-- Initial state of the ring-all loop (lines 196-211): all originate
commands have been issued in list order and every then-handler is
pending. -/
def raInit (numbers : List String) (origOk : Nat → Bool) (w : World) : RASt :=
  { attempts := numbers.enum.map (fun x => mkAttempt x.1 x.2 (origOk x.1))
    world := w
    success := false
    answeredChannel := none
    trace := numbers.enum.map (fun x =>
      if origOk x.1 then Action.originate (x.1 + 1) x.2 else Action.origFail x.2) }

/-- Attempt configuration of a ring-all attempt. -/
def attemptCfg (p : DispParams) (a : RAAttempt) : AttemptCfg :=
  ⟨a.dest, a.chan, p.isCitation, p.hasData, p.notifyOk, p.cbOrigOk⟩

/-- Asynchronous events delivered to a ring-all run: `StasisStart`
(answer) or channel destruction for attempt `i`. -/
inductive Ev where
  | answer (i : Nat)
  | destroy (i : Nat)
deriving DecidableEq

/-- One event step of `callQueueMembersRingall`.  An answer runs the
`StasisStart` handler of that attempt.  A destruction runs the
registered `StasisEnd` cleanup (if any), resolves the attempt's promise
with its local `success`, and then runs the then-handler of line 198:
when the attempt resolved `true` and `answeredChannel` is still `null`
it records the winner, sets the shared flag, and runs the
drop-other-calls loop — which reads `call.phoneNumber` and
`call.outboundChannel` from the stored `Promise` objects, so the
comparison `call.phoneNumber !== number` is `undefined !== number`
(always true) and each hangup targets `undefined`
(`Action.hangup none`). -/
def raStep (p : DispParams) (st : RASt) (ev : Ev) : RASt :=
  match ev with
  | Ev.answer i =>
    match st.attempts[i]? with
    | none => st
    | some a =>
      if a.status = AStat.ringing then
        let h := stasisStartHandler st.world (attemptCfg p a)
        { st with
          attempts := st.attempts.set i
            { a with
              status := AStat.answered
              localSuccess := h.localSuccess
              cleanup := h.cleanup }
          world := h.world
          trace := st.trace ++ h.trace }
      else st
  | Ev.destroy i =>
    match st.attempts[i]? with
    | none => st
    | some a =>
      if a.status = AStat.ringing ∨ a.status = AStat.answered then
        let d := stasisEndDestroy st.world (attemptCfg p a) a.cleanup
        let st1 : RASt :=
          { st with
            attempts := st.attempts.set i
              { a with status := AStat.destroyed, resolved := some a.localSuccess }
            world := d.1
            trace := st.trace ++ d.2 }
        if a.localSuccess && st1.answeredChannel.isNone then
          { st1 with
            success := true
            answeredChannel := some a.dest
            trace := st1.trace ++ [Action.setFlag a.dest] ++
              st1.attempts.map (fun _ => Action.hangup none) }
        else st1
      else st

/-- Every attempt's promise has resolved, i.e. `Promise.all` at line 214
is fulfilled. -/
def raResolvedAll (st : RASt) : Bool :=
  st.attempts.all (fun a => a.resolved.isSome)

/-- The value `callQueueMembersRingall` returns, available only once all
attempts have resolved. -/
def raResult (st : RASt) : Option Bool :=
  if raResolvedAll st then some st.success else none

/-- Run the ring-all dispatch body over a schedule of events. -/
def runRA (p : DispParams) (numbers : List String) (origOk : Nat → Bool) (w : World)
    (sched : List Ev) : RASt :=
  sched.foldl (raStep p) (raInit numbers origOk w)

/-- Model of `callQueueMembersRingall` (lines 177-217): the
zero-destination guard, then the event-driven body; the result exists
only when `Promise.all` over the attempts is fulfilled. -/
def callQueueMembersRingall (p : DispParams) (numbers : List String) (origOk : Nat → Bool)
    (w : World) (sched : List Ev) : Option Bool :=
  if emptyQueueGuard numbers then some false
  else raResult (runRA p numbers origOk w sched)

/-- State of the callback-enrollment machinery of
`promptCitationQueueHandler`: whether the DTMF listener is attached,
whether the `PlaybackFinished` once-handler of line 322 is armed, how
many callback entries this session enqueued, and how many hangups of the
inbound channel it issued. -/
structure CbSt where
  listening : Bool
  armed : Bool
  enq : Nat
  hups : Nat
  trace : List Action
deriving DecidableEq

/-- Events driving the callback-enrollment machinery: a DTMF digit on
the inbound channel, or a `PlaybackFinished` event of the session's
playback handle. -/
inductive CbEv where
  | dtmf (d : Char)
  | playFin
deriving DecidableEq

/-- Model of `callbackRequestHandler` (lines 292-325) for one received
digit.  A digit other than `'1'` returns before any effect.  Digit `'1'`
detaches the DTMF listeners, stops the playback and the recording,
enqueues one callback entry, plays the confirmation prompt and arms the
`PlaybackFinished` once-handler that will hang up the inbound
channel. -/
def callbackRequestHandler (st : CbSt) (d : Char) : CbSt :=
  if d = '1' then
    { st with
      listening := false
      armed := true
      enq := st.enq + 1
      trace := st.trace ++ [Action.detachDtmf, Action.stopPlayback, Action.stopRecording,
        Action.enqueueCb, Action.playConfirm] }
  else st

/-- Event dispatch of the callback-enrollment machinery: DTMF events
reach `callbackRequestHandler` only while the listener is attached
(line 342, removed at line 304); a `PlaybackFinished` event triggers the
hangup only when the once-handler of line 322 is armed, and disarms
it. -/
def cbStep (st : CbSt) (ev : CbEv) : CbSt :=
  match ev with
  | CbEv.dtmf d => if st.listening then callbackRequestHandler st d else st
  | CbEv.playFin =>
    if st.armed then
      { st with armed := false, hups := st.hups + 1, trace := st.trace ++ [Action.hangup (some 0)] }
    else st

/-- Initial callback-enrollment state: listening, nothing armed. -/
def cbInit : CbSt :=
  ⟨true, false, 0, 0, []⟩

/-- Run the callback-enrollment machinery over a list of events. -/
def cbRun (evs : List CbEv) : CbSt :=
  evs.foldl cbStep cbInit

/-- The event is a press of digit `'1'`. -/
def isOneEv : CbEv → Bool
  | CbEv.dtmf d => d = '1'
  | CbEv.playFin => false

/-- Whether a `PlaybackFinished` event occurs after a press of `'1'`
(given whether one was already seen), i.e. whether the confirmation
prompt finishes. -/
def hangupExpected : List CbEv → Bool → Bool
  | [], _ => false
  | CbEv.dtmf d :: r, seen => hangupExpected r (seen || d = '1')
  | CbEv.playFin :: r, seen => seen || hangupExpected r seen

/-- JavaScript `String.prototype.split` with a one-character separator:
every occurrence splits, empty segments are kept, and the empty string
yields the one-element list containing the empty string. -/
def splitOnChar (sep : Char) : List Char → List (List Char)
  | [] => [[]]
  | c :: rest =>
    if c = sep then [] :: splitOnChar sep rest
    else
      match splitOnChar sep rest with
      | [] => [[c]]
      | h :: t => (c :: h) :: t

/-- JavaScript `String.prototype.trim`: drop leading and trailing
whitespace. -/
def trimChars (s : List Char) : List Char :=
  ((s.dropWhile Char.isWhitespace).reverse.dropWhile Char.isWhitespace).reverse

/-- The queue record field the dispatch reads: the comma-separated
destination configuration string. -/
structure InboundNumber where
  queue_numbers : List Char
deriving DecidableEq

/-- Model of `getListOfQueuePhoneNumbers` (lines 41-43):
`inboundNumber.queue_numbers.split(',').map(phone => phone.trim())`. -/
def getListOfQueuePhoneNumbers (n : InboundNumber) : List (List Char) :=
  (splitOnChar ',' n.queue_numbers).map trimChars

/-- The action is the callback-queue dequeue probe that opens
`promptCitationCallback`. -/
def isDequeueAct : Action → Bool
  | Action.dequeue _ => true
  | _ => false

/-- The action is a bridge creation. -/
def isBridgeCreateAct : Action → Bool
  | Action.bridgeCreate _ => true
  | _ => false

/-- The action is the fire-and-forget third-party notification. -/
def isNotifyAct : Action → Bool
  | Action.notify _ _ => true
  | _ => false

/-- Splitting never yields the empty list: JavaScript `split` returns at
least one segment. -/
lemma splitOnChar_ne_nil (sep : Char) (s : List Char) : splitOnChar sep s ≠ [] := by
  induction s with
  | nil => simp [splitOnChar]
  | cons c rest ih =>
    simp only [splitOnChar]
    split
    · simp
    · split
      · simp
      · simp

/-- The attempt-local `success` variable is set unconditionally at
line 85, before the `stopMoh` call that may abort the handler, so the
handler always reports local success. -/
lemma stasisStartHandler_localSuccess (w : World) (cfg : AttemptCfg) :
    (stasisStartHandler w cfg).localSuccess = true := by
  obtain ⟨ia, q⟩ := w
  cases ia <;> simp [stasisStartHandler]

/-- The `StasisStart` handler issues no originate command for the
attempt's own channel (only, possibly, the callback originate, a
distinct action). -/
lemma stasisStartHandler_no_originate (w : World) (cfg : AttemptCfg) (c : Nat) (d : String) :
    Action.originate c d ∉ (stasisStartHandler w cfg).trace := by
  obtain ⟨ia, q⟩ := w
  cases ia <;> cases q <;>
    cases hcd : cfg.isCitation && cfg.hasData <;>
    simp [stasisStartHandler, promptCitationCallback, hcd]

/-- Channel destruction always records the `ChannelDestroyed` event of
the attempt's channel. -/
lemma stasisEndDestroy_chanDestroyed (w : World) (cfg : AttemptCfg) (cl : Bool) :
    Action.chanDestroyed cfg.chan ∈ (stasisEndDestroy w cfg cl).2 := by
  cases cl <;> simp [stasisEndDestroy]

/-- Channel destruction issues no originate command. -/
lemma stasisEndDestroy_no_originate (w : World) (cfg : AttemptCfg) (cl : Bool) (c : Nat)
    (d : String) : Action.originate c d ∉ (stasisEndDestroy w cfg cl).2 := by
  cases cl <;> simp [stasisEndDestroy]

/-- A `callQueueMember` call resolves `true` exactly when its originate
was accepted and the destination answered; the caller-gone branch still
resolves `true` because line 85 runs before the aborting `stopMoh`. -/
lemma callQueueMember_result (w : World) (cfg : AttemptCfg) (o a : Bool) :
    (callQueueMember w cfg o a).result = (o && a) := by
  cases o <;> cases a <;>
    simp [callQueueMember, stasisStartHandler_localSuccess]

/-- Every originate recorded by a `callQueueMember` call targets the
attempt's own channel, and that channel's destruction is recorded in the
same (fully awaited) call: the promise of `callQueueMember` resolves
only inside the `ChannelDestroyed` handler. -/
lemma callQueueMember_originate_destroyed (w : World) (cfg : AttemptCfg) (o a : Bool)
    (c : Nat) (d : String)
    (h : Action.originate c d ∈ (callQueueMember w cfg o a).trace) :
    c = cfg.chan ∧ Action.chanDestroyed c ∈ (callQueueMember w cfg o a).trace := by
  cases o with
  | false => simp [callQueueMember] at h
  | true =>
    cases a with
    | false =>
      simp [callQueueMember] at h
      refine ⟨h.1, ?_⟩
      simp [callQueueMember, h.1]
    | true =>
      simp only [callQueueMember, if_true] at h ⊢
      rcases List.mem_cons.mp h with hh | hh
      · have hc : c = cfg.chan := by
          have := (Action.originate.injEq _ _ _ _).mp hh
          exact this.1
        subst hc
        refine ⟨rfl, ?_⟩
        exact List.mem_cons_of_mem _ (List.mem_append.mpr
          (Or.inr (stasisEndDestroy_chanDestroyed _ _ _)))
      · rcases List.mem_append.mp hh with hm | hm
        · exact absurd hm (stasisStartHandler_no_originate _ _ _ _)
        · exact absurd hm (stasisEndDestroy_no_originate _ _ _ _ _)

/-- C10: for every queue record, `getListOfQueuePhoneNumbers` returns at
least one entry (JavaScript `split` never returns an empty array), the
empty configuration string yields the one-element list containing the
empty string, whitespace around the comma-separated segments is trimmed,
and consequently the zero-destination guard of both dispatch strategies
is never triggered by a list coming from a queue record — only a
directly supplied empty list triggers it. -/
theorem C10_queue_list_never_empty :
    ∀ (n : InboundNumber),
      1 ≤ (getListOfQueuePhoneNumbers n).length ∧
      emptyQueueGuard (getListOfQueuePhoneNumbers n) = false ∧
      getListOfQueuePhoneNumbers ⟨[]⟩ = [[]] ∧
      emptyQueueGuard ([] : List (List Char)) = true ∧
      getListOfQueuePhoneNumbers ⟨(" 201 , 202").toList⟩ = ["201".toList, "202".toList] := by
  intro n
  have h1 : splitOnChar ',' n.queue_numbers ≠ [] := splitOnChar_ne_nil _ _
  have hlen : 0 < (getListOfQueuePhoneNumbers n).length := by
    simpa [getListOfQueuePhoneNumbers] using List.length_pos.mpr h1
  refine ⟨hlen, ?_, by decide, by decide, by decide⟩
  cases hL : (getListOfQueuePhoneNumbers n).length with
  | zero => omega
  | succ k => simp [emptyQueueGuard, hL]

/-- C4: when the outbound endpoint answers but the inbound channel's
liveness lookup fails (the caller is gone), the `StasisStart` handler
invokes the callback-service handoff (`promptCitationCallback`, whose
first effect is the queue dequeue probe) and creates no bridge at all —
in particular no bridge joining the inbound channel to the answered
endpoint: the `stopMoh` call on the vanished inbound channel rejects and
the handler aborts before the bridge code of lines 104-109. -/
theorem C4_caller_gone_handoff_no_bridge :
    ∀ (cbq : Nat) (cfg : AttemptCfg),
      (stasisStartHandler ⟨false, cbq⟩ cfg).trace.any isDequeueAct = true ∧
      (stasisStartHandler ⟨false, cbq⟩ cfg).trace.any isBridgeCreateAct = false ∧
      Action.bridgeAdd cfg.chan 0 cfg.chan ∉ (stasisStartHandler ⟨false, cbq⟩ cfg).trace := by
  intro cbq cfg
  cases cbq <;>
    simp [stasisStartHandler, promptCitationCallback, isDequeueAct, isBridgeCreateAct]

/-- C5 counterexample: with the callback queue empty and the caller
gone, the complete effect trace of the answer handler is the dequeue
probe framed by the playback stop, the failed lookup and the failed
hold-music stop — the answered endpoint's channel (id 1 here) is never
hung up, contradicting the claim that it is released. -/
theorem C5_counterexample :
    (stasisStartHandler ⟨false, 0⟩ ⟨"201", 1, false, false, true, true⟩).trace
        = [Action.answerEvt 1, Action.stopPlayback, Action.lookupFail,
           Action.dequeue false, Action.stopMoh false] ∧
      Action.hangup (some 1) ∉
        (stasisStartHandler ⟨false, 0⟩ ⟨"201", 1, false, false, true, true⟩).trace := by
  exact ⟨rfl, by decide⟩

/-- C5 amended: if the callback queue is empty when an answered endpoint
finds the caller gone, the handoff performs nothing beyond the dequeue
probe — no bridge is created and the queue is unchanged — but the
answered endpoint's channel is NOT hung up: no hangup of any channel is
issued anywhere in the answer handling. -/
theorem C5_empty_queue_no_bridge_no_hangup :
    ∀ (a : Bool) (cfg : AttemptCfg) (cbq : Nat),
      promptCitationCallback ⟨a, 0⟩ cfg = (⟨a, 0⟩, [Action.dequeue false]) ∧
      (stasisStartHandler ⟨false, 0⟩ cfg).trace.any isBridgeCreateAct = false ∧
      ∀ (t : Option Nat), Action.hangup t ∉ (stasisStartHandler ⟨false, cbq⟩ cfg).trace := by
  intro a cfg cbq
  refine ⟨rfl, ?_, ?_⟩
  · simp [stasisStartHandler, promptCitationCallback, isBridgeCreateAct]
  · intro t
    cases cbq <;> simp [stasisStartHandler, promptCitationCallback]

/-- C9 counterexample: a callback-mode dispatch attempt that rings its
destination ("201" is originated) but is never answered fires no
third-party notification at all, refuting the claim that the
notification is fired at the point when the dispatch is about to ring
the destination. -/
theorem C9_counterexample :
    (callQueueMember ⟨true, 0⟩ ⟨"201", 1, true, true, true, true⟩ true false).trace
        = [Action.originate 1 "201", Action.chanDestroyed 1] ∧
      (callQueueMember ⟨true, 0⟩ ⟨"201", 1, true, true, true, true⟩ true false).trace.any
          isNotifyAct = false ∧
      (callQueueMember ⟨true, 0⟩ ⟨"201", 1, true, true, true, true⟩ true false).result
        = false := by
  exact ⟨rfl, rfl, rfl⟩

/-- C9 amended: the third-party notification fires when (and only when)
the destination answers while the inbound caller is still alive, in
callback mode with a callback payload present; it is fire-and-forget —
its success or failure never influences the attempt's boolean result. -/
theorem C9_notify_at_answer_fire_and_forget :
    ∀ (w : World) (cfg : AttemptCfg) (origOk answers : Bool),
      (callQueueMember w cfg origOk answers).trace.any isNotifyAct
          = (origOk && answers && w.inboundAlive && cfg.isCitation && cfg.hasData) ∧
      ∀ (b₁ b₂ : Bool),
        (callQueueMember w { cfg with notifyOk := b₁ } origOk answers).result
          = (callQueueMember w { cfg with notifyOk := b₂ } origOk answers).result := by
  intro w cfg origOk answers
  constructor
  · obtain ⟨ia, q⟩ := w
    cases origOk <;> cases answers <;> cases ia <;> cases q <;>
      cases hci : cfg.isCitation <;> cases hcd : cfg.hasData <;>
      simp [callQueueMember, stasisStartHandler, stasisEndDestroy, promptCitationCallback,
        isNotifyAct, hci, hcd]
  · intro b₁ b₂
    simp [callQueueMember_result]

/-- A digit other than `'1'` leaves the callback-enrollment state
untouched, whether or not the listener is attached. -/
lemma cbStep_other_digit (st : CbSt) (d : Char) (hd : d ≠ '1') :
    cbStep st (CbEv.dtmf d) = st := by
  simp [cbStep, callbackRequestHandler, hd]

/-- Generalized invariant of the callback-enrollment machinery: running
from any state whose components are determined by whether digit `'1'`
was already seen and whether the enrollment hangup already fired, the
final number of enqueues and hangups is as the event list dictates. -/
lemma cbRun_invariant :
    ∀ (evs : List CbEv) (seen fired : Bool) (st : CbSt),
      st.listening = !seen → st.armed = (seen && !fired) →
      st.enq = (if seen then 1 else 0) → st.hups = (if fired then 1 else 0) →
      (fired = true → seen = true) →
      (evs.foldl cbStep st).enq = (if seen || evs.any isOneEv then 1 else 0) ∧
      (evs.foldl cbStep st).hups = (if fired || hangupExpected evs seen then 1 else 0) := by
  intro evs
  induction evs with
  | nil =>
    intro seen fired st h1 h2 h3 h4 h5
    simpa [hangupExpected] using ⟨h3, h4⟩
  | cons e r ih =>
    intro seen fired st h1 h2 h3 h4 h5
    cases e with
    | dtmf d =>
      by_cases hd : d = '1'
      · subst hd
        cases hseen : seen with
        | true =>
          have hl : st.listening = false := by simp [h1, hseen]
          have hstep : cbStep st (CbEv.dtmf '1') = st := by simp [cbStep, hl]
          have := ih true fired st (by simp [h1, hseen]) (by simp [h2, hseen])
            (by simp [h3, hseen]) h4 (fun _ => rfl)
          simpa [hstep, hangupExpected, isOneEv] using this
        | false =>
          have hfired : fired = false := by
            cases hf : fired with
            | false => rfl
            | true => exact absurd (h5 hf) (by simp [hseen])
          have hl : st.listening = true := by simp [h1, hseen]
          have hstep : cbStep st (CbEv.dtmf '1') =
              { st with
                listening := false
                armed := true
                enq := st.enq + 1
                trace := st.trace ++ [Action.detachDtmf, Action.stopPlayback,
                  Action.stopRecording, Action.enqueueCb, Action.playConfirm] } := by
            simp [cbStep, callbackRequestHandler, hl]
          have := ih true false
            { st with
              listening := false
              armed := true
              enq := st.enq + 1
              trace := st.trace ++ [Action.detachDtmf, Action.stopPlayback,
                Action.stopRecording, Action.enqueueCb, Action.playConfirm] }
            (by simp) (by simp) (by simp [h3, hseen]) (by simp [h4, hfired, hseen])
            (fun _ => rfl)
          simpa [hstep, hangupExpected, isOneEv, hfired] using this
      · have hstep : cbStep st (CbEv.dtmf d) = st := cbStep_other_digit st d hd
        have := ih seen fired st h1 h2 h3 h4 h5
        simpa [hstep, hangupExpected, isOneEv, hd] using this
    | playFin =>
      cases hseen : seen with
      | false =>
        have ha : st.armed = false := by simp [h2, hseen]
        have hstep : cbStep st CbEv.playFin = st := by simp [cbStep, ha]
        have := ih false fired st (by simp [h1, hseen]) (by simp [h2, hseen])
          (by simp [h3, hseen]) h4 (fun hf => absurd (h5 hf) (by simp [hseen]))
        simpa [hstep, hangupExpected, isOneEv] using this
      | true =>
        cases hfired : fired with
        | true =>
          have ha : st.armed = false := by simp [h2, hseen, hfired]
          have hstep : cbStep st CbEv.playFin = st := by simp [cbStep, ha]
          have := ih true true st (by simp [h1, hseen]) (by simp [h2, hseen, hfired])
            (by simp [h3, hseen]) (by simp [h4, hfired]) (fun _ => rfl)
          simpa [hstep, hangupExpected, isOneEv] using this
        | false =>
          have ha : st.armed = true := by simp [h2, hseen, hfired]
          have hstep : cbStep st CbEv.playFin =
              { st with
                armed := false
                hups := st.hups + 1
                trace := st.trace ++ [Action.hangup (some 0)] } := by
            simp [cbStep, ha]
          have := ih true true
            { st with
              armed := false
              hups := st.hups + 1
              trace := st.trace ++ [Action.hangup (some 0)] }
            (by simp [h1, hseen]) (by simp) (by simp [h3, hseen])
            (by simp [h4, hfired]) (fun _ => rfl)
          simpa [hstep, hangupExpected, isOneEv, hseen] using this

/-- C6: over any sequence of digit and playback-finished events, the
callback-enrollment machinery enqueues exactly one callback entry when
some `'1'` is pressed and none otherwise; it hangs the inbound channel
up exactly once, namely when a playback finishes after the (first)
press of `'1'` (the armed confirmation prompt), and never otherwise; a
digit other than `'1'` causes no state transition and no side effect;
and the `'1'` transition while listening performs exactly the listed
effects: detach the digit handler, stop the playback, stop the
recording, enqueue one entry, play the confirmation, and arm the
one-shot hangup. -/
theorem C6_digit_one_enrollment_one_shot :
    ∀ (evs : List CbEv),
      (cbRun evs).enq = (if evs.any isOneEv then 1 else 0) ∧
      (cbRun evs).hups = (if hangupExpected evs false then 1 else 0) ∧
      (∀ (st : CbSt) (d : Char), d ≠ '1' → cbStep st (CbEv.dtmf d) = st) ∧
      (∀ (st : CbSt), st.listening = true → cbStep st (CbEv.dtmf '1') =
        { st with
          listening := false
          armed := true
          enq := st.enq + 1
          trace := st.trace ++ [Action.detachDtmf, Action.stopPlayback,
            Action.stopRecording, Action.enqueueCb, Action.playConfirm] }) := by
  intro evs
  have h := cbRun_invariant evs false false cbInit rfl rfl rfl rfl (by simp)
  refine ⟨by simpa [cbRun] using h.1, by simpa [cbRun] using h.2, cbStep_other_digit, ?_⟩
  intro st hl
  simp [cbStep, callbackRequestHandler, hl]

/-- C6 witness: on the concrete event sequence "press 2, press 1,
confirmation finishes, press 1 again, another playback finishes" the
machinery enqueues exactly one entry and hangs up exactly once, and a
`'2'` press on the initial state is a no-op. -/
theorem C6_digit_one_enrollment_one_shot_witness :
    (cbRun [CbEv.dtmf '2', CbEv.dtmf '1', CbEv.playFin, CbEv.dtmf '1', CbEv.playFin]).enq = 1 ∧
    (cbRun [CbEv.dtmf '2', CbEv.dtmf '1', CbEv.playFin, CbEv.dtmf '1', CbEv.playFin]).hups = 1 ∧
    cbStep cbInit (CbEv.dtmf '2') = cbInit := by
  have h := C6_digit_one_enrollment_one_shot
    [CbEv.dtmf '2', CbEv.dtmf '1', CbEv.playFin, CbEv.dtmf '1', CbEv.playFin]
  exact ⟨h.1.trans (by decide), h.2.1.trans (by decide),
    h.2.2.1 cbInit '2' (by decide)⟩

/-- A ring-all event step never unsets or overwrites a recorded winner:
`answeredChannel` is assigned only under the `answeredChannel === null`
check of line 199. -/
lemma raStep_flag_some (p : DispParams) (st : RASt) (ev : Ev) (x : String)
    (h : st.answeredChannel = some x) : (raStep p st ev).answeredChannel = some x := by
  cases ev with
  | answer i =>
    cases hA : st.attempts[i]? with
    | none => simpa [raStep, hA] using h
    | some a =>
      by_cases hs : a.status = AStat.ringing
      · simpa [raStep, hA, hs] using h
      · simpa [raStep, hA, hs] using h
  | destroy i =>
    cases hA : st.attempts[i]? with
    | none => simpa [raStep, hA] using h
    | some a =>
      by_cases hs : a.status = AStat.ringing ∨ a.status = AStat.answered
      · simp [raStep, hA, hs, h]
      · simpa [raStep, hA, hs] using h

/-- A ring-all event step never resets the shared `success` flag. -/
lemma raStep_success_mono (p : DispParams) (st : RASt) (ev : Ev)
    (h : st.success = true) : (raStep p st ev).success = true := by
  cases ev with
  | answer i =>
    cases hA : st.attempts[i]? with
    | none => simpa [raStep, hA] using h
    | some a =>
      by_cases hs : a.status = AStat.ringing
      · simpa [raStep, hA, hs] using h
      · simpa [raStep, hA, hs] using h
  | destroy i =>
    cases hA : st.attempts[i]? with
    | none => simpa [raStep, hA] using h
    | some a =>
      by_cases hs : a.status = AStat.ringing ∨ a.status = AStat.answered
      · simp [raStep, hA, hs, h]
        split <;> simp [h]
      · simpa [raStep, hA, hs] using h

/-- Run-level version of `raStep_flag_some`. -/
lemma raRun_flag_some : ∀ (sched : List Ev) (p : DispParams) (st : RASt) (x : String),
    st.answeredChannel = some x → (sched.foldl (raStep p) st).answeredChannel = some x := by
  intro sched
  induction sched with
  | nil => intro p st x h; simpa using h
  | cons e r ih =>
    intro p st x h
    simpa using ih p (raStep p st e) x (raStep_flag_some p st e x h)

/-- Run-level version of `raStep_success_mono`. -/
lemma raRun_success_mono : ∀ (sched : List Ev) (p : DispParams) (st : RASt),
    st.success = true → (sched.foldl (raStep p) st).success = true := by
  intro sched
  induction sched with
  | nil => intro p st h; simpa using h
  | cons e r ih =>
    intro p st h
    simpa using ih p (raStep p st e) (raStep_success_mono p st e h)

/-- C1: evidence for the drop-other-calls defect.  Destinations "201"
and "202" both ring; "201" answers and its call ends (its channel is
destroyed), at which point the then-handler registers the winner and
runs the drop-other-calls loop.  In the resulting state the shared flag
is set, the loop has issued only hangups of the `undefined` channel
read off the stored `Promise` objects (`Action.hangup none`), "202"'s
outbound channel (id 2) is still ringing, and no hangup ever targeted
it — contradicting the claim that at the moment the first answer is
registered every other in-flight attempt's outbound channel is hung
up. -/
theorem C1_ringall_losers_not_hungup :
    (runRA ⟨false, false, true, true⟩ ["201", "202"] (fun _ => true) ⟨true, 0⟩
        [Ev.answer 0, Ev.destroy 0]).success = true ∧
      (runRA ⟨false, false, true, true⟩ ["201", "202"] (fun _ => true) ⟨true, 0⟩
          [Ev.answer 0, Ev.destroy 0]).answeredChannel = some "201" ∧
      (runRA ⟨false, false, true, true⟩ ["201", "202"] (fun _ => true) ⟨true, 0⟩
          [Ev.answer 0, Ev.destroy 0]).attempts[1]?
        = some ⟨"202", 2, AStat.ringing, false, false, none⟩ ∧
      Action.setFlag "201" ∈ (runRA ⟨false, false, true, true⟩ ["201", "202"]
          (fun _ => true) ⟨true, 0⟩ [Ev.answer 0, Ev.destroy 0]).trace ∧
      Action.hangup none ∈ (runRA ⟨false, false, true, true⟩ ["201", "202"]
          (fun _ => true) ⟨true, 0⟩ [Ev.answer 0, Ev.destroy 0]).trace ∧
      Action.hangup (some 2) ∉ (runRA ⟨false, false, true, true⟩ ["201", "202"]
          (fun _ => true) ⟨true, 0⟩ [Ev.answer 0, Ev.destroy 0]).trace := by
  decide

/-- C2 counterexample: after the winner "201" is registered (the shared
flag is set), attempt "202" answers and later resolves; the run ends
with every promise resolved and result `true`, yet no hangup of "202"'s
outbound channel (id 2) was ever issued by the dispatcher — refuting the
part of the claim that says every subsequent or concurrent answered
attempt's outbound channel is hung up. -/
theorem C2_counterexample :
    (runRA ⟨false, false, true, true⟩ ["201", "202"] (fun _ => true) ⟨true, 0⟩
        [Ev.answer 0, Ev.destroy 0, Ev.answer 1, Ev.destroy 1]).answeredChannel
      = some "201" ∧
      Action.setFlag "201" ∈ (runRA ⟨false, false, true, true⟩ ["201", "202"]
          (fun _ => true) ⟨true, 0⟩
          [Ev.answer 0, Ev.destroy 0, Ev.answer 1, Ev.destroy 1]).trace ∧
      (runRA ⟨false, false, true, true⟩ ["201", "202"] (fun _ => true) ⟨true, 0⟩
          [Ev.answer 0, Ev.destroy 0, Ev.answer 1, Ev.destroy 1]).attempts[1]?
        = some ⟨"202", 2, AStat.destroyed, true, false, some true⟩ ∧
      Action.hangup (some 2) ∉ (runRA ⟨false, false, true, true⟩ ["201", "202"]
          (fun _ => true) ⟨true, 0⟩
          [Ev.answer 0, Ev.destroy 0, Ev.answer 1, Ev.destroy 1]).trace ∧
      raResult (runRA ⟨false, false, true, true⟩ ["201", "202"] (fun _ => true) ⟨true, 0⟩
          [Ev.answer 0, Ev.destroy 0, Ev.answer 1, Ev.destroy 1]) = some true := by
  decide

/-- C2 amended: the shared success flag of a ring-all dispatch is a
monotonic one-shot — once some attempt has recorded itself as the
winner, no later event unsets or overwrites the recorded winner, and a
set `success` flag stays set, so later answered attempts are discarded
as far as the flag and the dispatch result are concerned.  (The part of
the original claim stating that subsequent or concurrent answered
attempts' outbound channels are hung up is refuted by the
counterexample.) -/
theorem C2_flag_monotone_one_shot :
    ∀ (p : DispParams) (sched : List Ev) (st : RASt) (x : String),
      st.answeredChannel = some x →
      (sched.foldl (raStep p) st).answeredChannel = some x ∧
      (st.success = true → (sched.foldl (raStep p) st).success = true) := by
  intro p sched st x h
  exact ⟨raRun_flag_some sched p st x h, fun hs => raRun_success_mono sched p st hs⟩

/-- C2 witness: starting from the state in which "201" has been
registered as the winner, delivering the answer and destruction of
attempt "202" leaves the winner and the success flag unchanged. -/
theorem C2_flag_monotone_one_shot_witness :
    ([Ev.answer 1, Ev.destroy 1].foldl (raStep ⟨false, false, true, true⟩)
        (runRA ⟨false, false, true, true⟩ ["201", "202"] (fun _ => true) ⟨true, 0⟩
          [Ev.answer 0, Ev.destroy 0])).answeredChannel = some "201" ∧
      ([Ev.answer 1, Ev.destroy 1].foldl (raStep ⟨false, false, true, true⟩)
          (runRA ⟨false, false, true, true⟩ ["201", "202"] (fun _ => true) ⟨true, 0⟩
            [Ev.answer 0, Ev.destroy 0])).success = true := by
  have h := C2_flag_monotone_one_shot ⟨false, false, true, true⟩ [Ev.answer 1, Ev.destroy 1]
    (runRA ⟨false, false, true, true⟩ ["201", "202"] (fun _ => true) ⟨true, 0⟩
      [Ev.answer 0, Ev.destroy 0]) "201" (by decide)
  exact ⟨h.1, h.2 (by decide)⟩

/-- An attempt's promise is resolved only once the attempt is terminal
(originate rejected, or channel destroyed); a ring-all event step
preserves this. -/
lemma raStep_terminal_inv (p : DispParams) (st : RASt) (ev : Ev)
    (h : ∀ a ∈ st.attempts, a.resolved.isSome = true →
      a.status = AStat.failed ∨ a.status = AStat.destroyed) :
    ∀ a ∈ (raStep p st ev).attempts, a.resolved.isSome = true →
      a.status = AStat.failed ∨ a.status = AStat.destroyed := by
  cases ev with
  | answer i =>
    cases hA : st.attempts[i]? with
    | none => simpa [raStep, hA] using h
    | some a =>
      by_cases hs : a.status = AStat.ringing
      · intro b hb hres
        simp only [raStep, hA, hs, if_true] at hb
        rcases List.mem_or_eq_of_mem_set hb with hmem | rfl
        · exact h b hmem hres
        · have hterm := h a (List.getElem?_mem hA) (by simpa using hres)
          rw [hs] at hterm
          rcases hterm with h1 | h1 <;> exact absurd h1 (by simp)
      · simpa [raStep, hA, hs] using h
  | destroy i =>
    cases hA : st.attempts[i]? with
    | none => simpa [raStep, hA] using h
    | some a =>
      by_cases hs : a.status = AStat.ringing ∨ a.status = AStat.answered
      · intro b hb hres
        simp only [raStep, hA, hs, if_true] at hb
        split at hb <;>
        · simp only [] at hb
          rcases List.mem_or_eq_of_mem_set hb with hmem | rfl
          · exact h b hmem hres
          · exact Or.inr rfl
      · simpa [raStep, hA, hs] using h

/-- In the initial ring-all state, resolved attempts are exactly the
rejected originates, which are terminal. -/
lemma raInit_terminal_inv (numbers : List String) (origOk : Nat → Bool) (w : World) :
    ∀ a ∈ (raInit numbers origOk w).attempts, a.resolved.isSome = true →
      a.status = AStat.failed ∨ a.status = AStat.destroyed := by
  intro a ha hres
  simp only [raInit] at ha
  rcases List.mem_map.mp ha with ⟨x, hx, rfl⟩
  cases ho : origOk x.1 <;> simp [mkAttempt, ho] at hres ⊢

/-- Run-level version of `raStep_terminal_inv`. -/
lemma raRun_terminal_inv : ∀ (sched : List Ev) (p : DispParams) (st : RASt),
    (∀ a ∈ st.attempts, a.resolved.isSome = true →
      a.status = AStat.failed ∨ a.status = AStat.destroyed) →
    ∀ a ∈ (sched.foldl (raStep p) st).attempts, a.resolved.isSome = true →
      a.status = AStat.failed ∨ a.status = AStat.destroyed := by
  intro sched
  induction sched with
  | nil => intro p st h; simpa using h
  | cons e r ih =>
    intro p st h
    simpa using ih p (raStep p st e) (raStep_terminal_inv p st e h)

/-- A step of the ring-all machine cannot create attempts. -/
lemma raStep_attempts_nil (p : DispParams) (st : RASt) (ev : Ev)
    (h : st.attempts = []) : (raStep p st ev).attempts = [] := by
  cases ev <;> simp [raStep, h]

/-- Run-level version of `raStep_attempts_nil`. -/
lemma raRun_attempts_nil : ∀ (sched : List Ev) (p : DispParams) (st : RASt),
    st.attempts = [] → (sched.foldl (raStep p) st).attempts = [] := by
  intro sched
  induction sched with
  | nil => intro p st h; simpa using h
  | cons e r ih =>
    intro p st h
    simpa using ih p (raStep p st e) (raStep_attempts_nil p st e h)

/-- C8: the ring-all dispatch result exists only once `Promise.all` over
the attempts is fulfilled, and an attempt's promise resolves only at its
terminal state — so whenever `callQueueMembersRingall` yields a result,
every attempt has reached a terminal state (rejected originate or
destroyed channel): the strategy is a join over all attempts, never a
first-to-finish race. -/
theorem C8_ringall_result_requires_all_terminal :
    ∀ (p : DispParams) (numbers : List String) (origOk : Nat → Bool) (w : World)
      (sched : List Ev) (b : Bool),
      callQueueMembersRingall p numbers origOk w sched = some b →
      ∀ a ∈ (runRA p numbers origOk w sched).attempts,
        a.status = AStat.failed ∨ a.status = AStat.destroyed := by
  intro p numbers origOk w sched b hres a ha
  by_cases hg : emptyQueueGuard numbers = true
  · have hn : numbers = [] := by
      have hlen : numbers.length = 0 := by simpa [emptyQueueGuard] using hg
      exact List.length_eq_zero.mp hlen
    have : (runRA p numbers origOk w sched).attempts = [] := by
      apply raRun_attempts_nil
      simp [raInit, hn]
    rw [this] at ha
    exact absurd ha (List.not_mem_nil a)
  · have hinv := raRun_terminal_inv sched p (raInit numbers origOk w)
      (raInit_terminal_inv numbers origOk w)
    simp only [callQueueMembersRingall, hg, if_false, Bool.false_eq_true] at hres
    by_cases hr : raResolvedAll (runRA p numbers origOk w sched) = true
    · exact hinv a ha (List.all_eq_true.mp hr a ha)
    · simp [raResult, hr] at hres

/-- C8 witness: a one-destination ring-all whose only attempt is
destroyed unanswered yields the result `false`, and every attempt of the
final state is terminal. -/
theorem C8_ringall_result_requires_all_terminal_witness :
    (runRA ⟨false, false, true, true⟩ ["201"] (fun _ => true) ⟨true, 0⟩
        [Ev.destroy 0]).attempts.all
      (fun a => decide (a.status = AStat.failed ∨ a.status = AStat.destroyed)) = true := by
  have h := C8_ringall_result_requires_all_terminal ⟨false, false, true, true⟩ ["201"]
    (fun _ => true) ⟨true, 0⟩ [Ev.destroy 0] false (by decide)
  exact List.all_eq_true.mpr (fun a ha => decide_eq_true (h a ha))

/-- Every originate recorded by the sequential loop is matched by the
destruction of the same channel in the loop's own trace, because each
`callQueueMember` is fully awaited and resolves only at its channel's
destruction. -/
lemma seqGo_originate_destroyed :
    ∀ (numbers : List String) (p : DispParams) (aliveC aliveA origOk answers : Nat → Bool)
      (i cbq : Nat) (c : Nat) (d : String),
      Action.originate c d ∈ (seqGo p aliveC aliveA origOk answers numbers i cbq).trace →
      Action.chanDestroyed c ∈ (seqGo p aliveC aliveA origOk answers numbers i cbq).trace := by
  intro numbers
  induction numbers with
  | nil =>
    intro p aC aA oO an i cbq c d h
    simp [seqGo] at h
  | cons n rest ih =>
    intro p aC aA oO an i cbq c d h
    cases haC : aC i with
    | false =>
      simp only [seqGo, haC, Bool.false_eq_true, if_false] at h ⊢
      rcases List.mem_cons.mp h with he | h1
      · exact absurd he (by simp)
      rcases List.mem_cons.mp h1 with he | h2
      · exact absurd he (by simp)
      exact List.mem_cons_of_mem _ (List.mem_cons_of_mem _
        (ih p aC aA oO an (i + 1) cbq c d h2))
    | true =>
      cases hres : (callQueueMember ⟨aA i, cbq⟩ (seqCfg p i n) (oO i) (an i)).result with
      | true =>
        have htr : (seqGo p aC aA oO an (n :: rest) i cbq).trace
            = Action.newStub i :: Action.checkInbound i true ::
              ((callQueueMember ⟨aA i, cbq⟩ (seqCfg p i n) (oO i) (an i)).trace ++
                stubHangups i) := by
          simp [seqGo, haC, hres]
        rw [htr] at h ⊢
        rcases List.mem_cons.mp h with he | h1
        · exact absurd he (by simp)
        rcases List.mem_cons.mp h1 with he | h2
        · exact absurd he (by simp)
        rcases List.mem_append.mp h2 with hr | hs
        · have hcd := (callQueueMember_originate_destroyed _ _ _ _ _ _ hr).2
          exact List.mem_cons_of_mem _ (List.mem_cons_of_mem _
            (List.mem_append.mpr (Or.inl hcd)))
        · exact absurd hs (by simp [stubHangups])
      | false =>
        have htr : (seqGo p aC aA oO an (n :: rest) i cbq).trace
            = Action.newStub i :: Action.checkInbound i true ::
              ((callQueueMember ⟨aA i, cbq⟩ (seqCfg p i n) (oO i) (an i)).trace ++
                (seqGo p aC aA oO an rest (i + 1)
                  (callQueueMember ⟨aA i, cbq⟩ (seqCfg p i n) (oO i) (an i)).world.cbQueue).trace) := by
          simp [seqGo, haC, hres]
        rw [htr] at h ⊢
        rcases List.mem_cons.mp h with he | h1
        · exact absurd he (by simp)
        rcases List.mem_cons.mp h1 with he | h2
        · exact absurd he (by simp)
        rcases List.mem_append.mp h2 with hr | hk
        · have hcd := (callQueueMember_originate_destroyed _ _ _ _ _ _ hr).2
          exact List.mem_cons_of_mem _ (List.mem_cons_of_mem _
            (List.mem_append.mpr (Or.inl hcd)))
        · exact List.mem_cons_of_mem _ (List.mem_cons_of_mem _
            (List.mem_append.mpr (Or.inr (ih p aC aA oO an (i + 1) _ c d hk))))

/-- C7: on every return path of the sequential dispatch — success, list
exhaustion, and caller-gone alike — every outbound channel it opened has
been destroyed by the time it returns (each attempt resolves only inside
its channel's `ChannelDestroyed` handler); in particular every opened
outbound channel that is not the answered one is down before the
dispatch returns. -/
theorem C7_seq_all_opened_channels_down :
    ∀ (p : DispParams) (aliveC aliveA origOk answers : Nat → Bool) (numbers : List String)
      (cbq : Nat) (c : Nat) (d : String),
      Action.originate c d ∈
          (callQueueMembers p aliveC aliveA origOk answers numbers cbq).trace →
      Action.chanDestroyed c ∈
          (callQueueMembers p aliveC aliveA origOk answers numbers cbq).trace := by
  intro p aC aA oO an numbers cbq c d h
  by_cases hg : emptyQueueGuard numbers = true
  · simp [callQueueMembers, hg] at h
  · simp only [callQueueMembers, hg, Bool.false_eq_true, if_false] at h ⊢
    exact seqGo_originate_destroyed numbers p aC aA oO an 0 cbq c d h

/-- C7 witness: a one-destination sequential dispatch that answers opens
channel 1 and has destroyed it by the time it returns. -/
theorem C7_seq_all_opened_channels_down_witness :
    Action.originate 1 "201" ∈ (callQueueMembers ⟨false, false, true, true⟩ (fun _ => true)
        (fun _ => true) (fun _ => true) (fun _ => true) ["201"] 0).trace ∧
      Action.chanDestroyed 1 ∈ (callQueueMembers ⟨false, false, true, true⟩ (fun _ => true)
        (fun _ => true) (fun _ => true) (fun _ => true) ["201"] 0).trace := by
  refine ⟨by decide, ?_⟩
  exact C7_seq_all_opened_channels_down ⟨false, false, true, true⟩ (fun _ => true)
    (fun _ => true) (fun _ => true) (fun _ => true) ["201"] 0 1 "201" (by decide)

/-- C3 counterexample: with the caller gone from the start and two
configured destinations, the sequential dispatch does not abort at the
first failed liveness check — its complete trace shows a stub-channel
allocation and a failed liveness check for the second destination as
well — although it returns failure and never issues an originate. -/
theorem C3_counterexample :
    (callQueueMembers ⟨false, false, true, true⟩ (fun _ => false) (fun _ => true)
          (fun _ => true) (fun _ => true) ["201", "202"] 0).trace
        = [Action.newStub 0, Action.checkInbound 0 false, Action.newStub 1,
           Action.checkInbound 1 false] ∧
      (callQueueMembers ⟨false, false, true, true⟩ (fun _ => false) (fun _ => true)
          (fun _ => true) (fun _ => true) ["201", "202"] 0).success = false := by
  exact ⟨rfl, rfl⟩

/-- Sequential loop under a dead caller: once the inbound channel is
gone from iteration `i` on (and no earlier destination answered), the
loop returns failure and never originates toward destination `i` or any
later one — it does, however, keep iterating, allocating a stub and
probing the inbound channel for each remaining destination. -/
lemma seqGo_dead :
    ∀ (numbers : List String) (p : DispParams) (aliveC aliveA origOk answers : Nat → Bool)
      (i k cbq : Nat),
      (∀ j, i ≤ j → aliveC j = false) →
      (∀ j, j < i → answers j = false) →
      (seqGo p aliveC aliveA origOk answers numbers k cbq).success = false ∧
      ∀ (j : Nat) (dst : String), i ≤ j →
        Action.originate (j + 1) dst ∉
          (seqGo p aliveC aliveA origOk answers numbers k cbq).trace := by
  intro numbers
  induction numbers with
  | nil =>
    intro p aC aA oO an i k cbq h1 h2
    constructor
    · simp [seqGo]
    · intro j dst hj
      simp [seqGo]
  | cons n rest ih =>
    intro p aC aA oO an i k cbq h1 h2
    cases haC : aC k with
    | false =>
      obtain ⟨ihs, iht⟩ := ih p aC aA oO an i (k + 1) cbq h1 h2
      have htr : (seqGo p aC aA oO an (n :: rest) k cbq).trace
          = Action.newStub k :: Action.checkInbound k false ::
            (seqGo p aC aA oO an rest (k + 1) cbq).trace := by
        simp [seqGo, haC]
      constructor
      · simp [seqGo, haC, ihs]
      · intro j dst hj hmem
        rw [htr] at hmem
        rcases List.mem_cons.mp hmem with he | h1m
        · exact absurd he (by simp)
        rcases List.mem_cons.mp h1m with he | h2m
        · exact absurd he (by simp)
        exact iht j dst hj h2m
    | true =>
      have hki : k < i := by
        by_contra hge
        push_neg at hge
        exact absurd (h1 k hge) (by simp [haC])
      have hres : (callQueueMember ⟨aA k, cbq⟩ (seqCfg p k n) (oO k) (an k)).result = false := by
        rw [callQueueMember_result]
        simp [h2 k hki]
      obtain ⟨ihs, iht⟩ := ih p aC aA oO an i (k + 1)
        (callQueueMember ⟨aA k, cbq⟩ (seqCfg p k n) (oO k) (an k)).world.cbQueue h1 h2
      have htr : (seqGo p aC aA oO an (n :: rest) k cbq).trace
          = Action.newStub k :: Action.checkInbound k true ::
            ((callQueueMember ⟨aA k, cbq⟩ (seqCfg p k n) (oO k) (an k)).trace ++
              (seqGo p aC aA oO an rest (k + 1)
                (callQueueMember ⟨aA k, cbq⟩ (seqCfg p k n) (oO k) (an k)).world.cbQueue).trace) := by
        simp [seqGo, haC, hres]
      constructor
      · simp [seqGo, haC, hres, ihs]
      · intro j dst hj hmem
        rw [htr] at hmem
        rcases List.mem_cons.mp hmem with he | h1m
        · exact absurd he (by simp)
        rcases List.mem_cons.mp h1m with he | h2m
        · exact absurd he (by simp)
        rcases List.mem_append.mp h2m with hr | hk
        · have hchan := (callQueueMember_originate_destroyed _ _ _ _ _ _ hr).1
          have hjk : j = k := by simpa [seqCfg] using hchan
          omega
        · exact iht j dst hj hk

/-- C3 amended: if the inbound caller's channel is gone from some point
`i` of the sequential dispatch on (every liveness check from `i`
onwards fails) and no earlier destination answered, the dispatch
returns failure and issues no originate command toward destination `i`
or any later destination — but it does not abort the loop: as the
counterexample records, it still allocates a channel object and probes
the inbound channel once per remaining destination. -/
theorem C3_caller_gone_no_more_originates :
    ∀ (p : DispParams) (aliveC aliveA origOk answers : Nat → Bool) (numbers : List String)
      (cbq i : Nat),
      (∀ j, i ≤ j → aliveC j = false) →
      (∀ j, j < i → answers j = false) →
      (callQueueMembers p aliveC aliveA origOk answers numbers cbq).success = false ∧
      ∀ (j : Nat) (dst : String), i ≤ j →
        Action.originate (j + 1) dst ∉
          (callQueueMembers p aliveC aliveA origOk answers numbers cbq).trace := by
  intro p aC aA oO an numbers cbq i h1 h2
  by_cases hg : emptyQueueGuard numbers = true
  · constructor
    · simp [callQueueMembers, hg]
    · intro j dst hj
      simp [callQueueMembers, hg]
  · have h := seqGo_dead numbers p aC aA oO an i 0 cbq h1 h2
    constructor
    · simpa [callQueueMembers, hg] using h.1
    · intro j dst hj
      simpa [callQueueMembers, hg] using h.2 j dst hj

/-- C3 witness: caller gone from the start with destinations "201" and
"202" — the dispatch returns failure and channel 1 (the would-be
outbound channel of "201") is never originated. -/
theorem C3_caller_gone_no_more_originates_witness :
    (callQueueMembers ⟨false, false, true, true⟩ (fun _ => false) (fun _ => true)
          (fun _ => true) (fun _ => true) ["201", "202"] 0).success = false ∧
      Action.originate 1 "201" ∉ (callQueueMembers ⟨false, false, true, true⟩ (fun _ => false)
          (fun _ => true) (fun _ => true) (fun _ => true) ["201", "202"] 0).trace := by
  have h := C3_caller_gone_no_more_originates ⟨false, false, true, true⟩ (fun _ => false)
    (fun _ => true) (fun _ => true) (fun _ => true) ["201", "202"] 0 0
    (fun _ _ => rfl) (fun j hj => absurd hj (Nat.not_lt_zero j))
  exact ⟨h.1, h.2 0 "201" (Nat.le_refl 0)⟩

end Ari
